import Mathlib

/-!
Verification of the CSV validate-and-store pipeline of the StockDataTask
repository (`validateCSVAndStoreCSV` in the router source file, together with
the `Stock` schema of `model.js`).

The JavaScript pipeline is shallowly embedded: a parsed CSV input is a header
line (a list of column-name strings; `none` when the source stream has no
header line at all) together with a list of data rows, each row being the
association of column names to raw cell strings produced by the csv parser.
JavaScript numbers produced by `parseFloat` / `parseInt` are modelled exactly
as far as the pipeline inspects them: NaN, the two infinities, and finite
values (kept as exact rationals; IEEE rounding is not modelled because the
pipeline never branches on a finite numeric value).  The MongoDB `save` call
is modelled as an injected sink returning per-call success or an error
message, exactly the interface the pipeline consumes.
-/

namespace StockCSV

/-- Single-quote character, used inside failure-reason strings. -/
def squote : String := String.singleton (Char.ofNat 39)

/-- JavaScript `String.prototype.trim()` on the common whitespace characters
(space, tab, carriage return, line feed). -/
def jsTrim (s : String) : String :=
  String.mk (((s.data.dropWhile Char.isWhitespace).reverse.dropWhile Char.isWhitespace).reverse)

/-- JavaScript `Array.prototype.join(', ')`. -/
def joinComma : List String → String
  | [] => ""
  | [a] => a
  | a :: rest => a ++ ", " ++ joinComma rest

/-- Numeric value of a string of decimal digit characters (most significant
first), as computed by a decimal parse. -/
def digitsVal (l : List Char) : Nat :=
  l.foldl (fun a c => 10 * a + (c.toNat - 48)) 0

/-- Decimal digit character for a value below 10. -/
def digitChar (n : Nat) : Char := Char.ofNat (48 + n)

/-- Result of a JavaScript numeric parse: NaN, an infinity, or a finite value
(kept exact as a rational; the pipeline never inspects finite values). -/
inductive JsNum
  | nan
  | posInf
  | negInf
  | num (q : ℚ)
deriving DecidableEq

/-- Whether a JavaScript numeric parse result `isNaN`. -/
def jsIsNaN : JsNum → Bool
  | .nan => true
  | _ => false

/-- JavaScript `parseFloat(value)` where `value` is a string or `undefined`
(`none`).  `undefined` coerces to the string "undefined", which has no numeric
prefix.  The longest numeric prefix is parsed: optional sign, then either the
literal `Infinity` or digits with an optional fraction and exponent. -/
def jsParseFloat : Option String → JsNum
  | none => .nan
  | some str =>
    let l := str.data.dropWhile Char.isWhitespace
    let signNeg : Bool :=
      match l with
      | c :: _ => c == '-'
      | [] => false
    let l1 : List Char :=
      match l with
      | '-' :: r => r
      | '+' :: r => r
      | _ => l
    match l1 with
    | 'I' :: 'n' :: 'f' :: 'i' :: 'n' :: 'i' :: 't' :: 'y' :: _ =>
      if signNeg then .negInf else .posInf
    | _ =>
      let ip := l1.takeWhile Char.isDigit
      let r1 := l1.dropWhile Char.isDigit
      let fp : List Char :=
        match r1 with
        | '.' :: rest => rest.takeWhile Char.isDigit
        | _ => []
      let r2 : List Char :=
        match r1 with
        | '.' :: rest => rest.dropWhile Char.isDigit
        | _ => r1
      if ip.isEmpty && fp.isEmpty then .nan
      else
        let mant : ℚ := (digitsVal ip : ℚ) + (digitsVal fp : ℚ) / (10 : ℚ) ^ fp.length
        let expo : Int :=
          match r2 with
          | c :: rest =>
            if c == 'e' || c == 'E' then
              let esign : Int :=
                match rest with
                | '-' :: _ => -1
                | _ => 1
              let r3 : List Char :=
                match rest with
                | '-' :: rr => rr
                | '+' :: rr => rr
                | _ => rest
              let ed := r3.takeWhile Char.isDigit
              if ed.isEmpty then 0 else esign * (digitsVal ed : Int)
            else 0
          | [] => 0
        .num ((if signNeg then -mant else mant) * (10 : ℚ) ^ expo)

/-- Hexadecimal digit test, for `parseInt` radix-16 prefixes. -/
def isHexDigit (c : Char) : Bool :=
  c.isDigit || ('a' ≤ c && c ≤ 'f') || ('A' ≤ c && c ≤ 'F')

/-- Value of a hexadecimal digit character. -/
def hexDigitVal (c : Char) : Nat :=
  if c.isDigit then c.toNat - 48
  else if 'a' ≤ c && c ≤ 'f' then c.toNat - 87
  else c.toNat - 55

/-- Numeric value of a string of hexadecimal digit characters. -/
def hexVal (l : List Char) : Nat :=
  l.foldl (fun a c => 16 * a + hexDigitVal c) 0

/-- JavaScript `parseInt(value)` with no radix argument: optional sign, then a
`0x`/`0X` hexadecimal prefix or a run of decimal digits; NaN when no digit
follows. -/
def jsParseInt : Option String → JsNum
  | none => .nan
  | some str =>
    let l := str.data.dropWhile Char.isWhitespace
    let signNeg : Bool :=
      match l with
      | c :: _ => c == '-'
      | [] => false
    let l1 : List Char :=
      match l with
      | '-' :: r => r
      | '+' :: r => r
      | _ => l
    match l1 with
    | '0' :: c :: rest =>
      if c == 'x' || c == 'X' then
        let hd := rest.takeWhile isHexDigit
        if hd.isEmpty then .nan
        else .num (if signNeg then -(hexVal hd : ℚ) else (hexVal hd : ℚ))
      else
        let dd := l1.takeWhile Char.isDigit
        .num (if signNeg then -(digitsVal dd : ℚ) else (digitsVal dd : ℚ))
    | _ =>
      let dd := l1.takeWhile Char.isDigit
      if dd.isEmpty then .nan
      else .num (if signNeg then -(digitsVal dd : ℚ) else (digitsVal dd : ℚ))

/-- The three layouts of the source's `dateFormats` array:
`['YYYY-MM-DD', 'MM/DD/YYYY', 'DD-MM-YYYY']`. -/
inductive DateFormat
  | ymd
  | mdy
  | dmy
deriving DecidableEq

/-- The ordered layout list `['YYYY-MM-DD', 'MM/DD/YYYY', 'DD-MM-YYYY']`. -/
def dateFormats : List DateFormat := [.ymd, .mdy, .dmy]

/-- Strict token match of one moment layout: `YYYY` is exactly four digits,
`MM` and `DD` exactly two, separators literal, no trailing input.  Returns the
parsed (year, month, day) numbers. -/
def parseWithFormat : DateFormat → String → Option (Nat × Nat × Nat)
  | .ymd, s =>
    match s.data with
    | [a, b, c, d, s1, e, f, s2, g, h] =>
      if a.isDigit && b.isDigit && c.isDigit && d.isDigit && s1 == '-' &&
          e.isDigit && f.isDigit && s2 == '-' && g.isDigit && h.isDigit then
        some (digitsVal [a, b, c, d], digitsVal [e, f], digitsVal [g, h])
      else none
    | _ => none
  | .mdy, s =>
    match s.data with
    | [e, f, s1, g, h, s2, a, b, c, d] =>
      if e.isDigit && f.isDigit && s1 == '/' && g.isDigit && h.isDigit && s2 == '/' &&
          a.isDigit && b.isDigit && c.isDigit && d.isDigit then
        some (digitsVal [a, b, c, d], digitsVal [e, f], digitsVal [g, h])
      else none
    | _ => none
  | .dmy, s =>
    match s.data with
    | [g, h, s1, e, f, s2, a, b, c, d] =>
      if g.isDigit && h.isDigit && s1 == '-' && e.isDigit && f.isDigit && s2 == '-' &&
          a.isDigit && b.isDigit && c.isDigit && d.isDigit then
        some (digitsVal [a, b, c, d], digitsVal [e, f], digitsVal [g, h])
      else none
    | _ => none

/-- Gregorian leap-year rule used by the calendar overflow check. -/
def isLeapYear (y : Nat) : Bool :=
  (y % 4 == 0 && y % 100 != 0) || y % 400 == 0

/-- Number of days in a month of a given year. -/
def daysInMonth (y m : Nat) : Nat :=
  if m == 2 then (if isLeapYear y then 29 else 28)
  else if m == 4 || m == 6 || m == 9 || m == 11 then 30
  else 31

/-- Moment's overflow check on a strictly parsed (year, month, day). -/
def dateValid (y m d : Nat) : Bool :=
  decide (1 ≤ m ∧ m ≤ 12 ∧ 1 ≤ d ∧ d ≤ daysInMonth y m)

/-- `moment(value, format, true).isValid()` for one layout; `undefined` input
is invalid. -/
def momentIsValid (v : Option String) (f : DateFormat) : Bool :=
  match v with
  | none => false
  | some s =>
    match parseWithFormat f s with
    | some (y, m, d) => dateValid y m d
    | none => false

/-- `moment(value, dateFormats, true)`: the first layout of the ordered list
that parses the string to a valid calendar date (the three layouts have
disjoint shapes, so at most one can match). -/
def momentParseFirst (s : String) : Option (Nat × Nat × Nat) :=
  dateFormats.findSome? (fun f =>
    match parseWithFormat f s with
    | some (y, m, d) => if dateValid y m d then some (y, m, d) else none
    | none => none)

/-- Zero-padded four-digit decimal rendering, as moment's `YYYY` format token
produces for the years (below 10000) a strict four-digit parse can yield. -/
def zeroPad4 (n : Nat) : String :=
  String.mk [digitChar (n / 1000 % 10), digitChar (n / 100 % 10),
    digitChar (n / 10 % 10), digitChar (n % 10)]

/-- Zero-padded two-digit decimal rendering, as moment's `MM`/`DD` format
tokens produce for the values (below 100) a strict two-digit parse can yield. -/
def zeroPad2 (n : Nat) : String :=
  String.mk [digitChar (n / 10 % 10), digitChar (n % 10)]

/-- `moment(value, dateFormats, true).format('YYYY-MM-DD')`; an invalid moment
formats as the string "Invalid date". -/
def momentFormatYMD (v : Option String) : String :=
  match v with
  | none => "Invalid date"
  | some s =>
    match momentParseFirst s with
    | some (y, m, d) => zeroPad4 y ++ "-" ++ zeroPad2 m ++ "-" ++ zeroPad2 d
    | none => "Invalid date"

/-- One parsed CSV data row: the association of header column names to raw
cell strings, as produced by the csv parser. -/
structure Row where
  fields : List (String × String)
deriving DecidableEq

/-- JavaScript property access `row[field]`: `none` models `undefined`. -/
def Row.get? (r : Row) (name : String) : Option String :=
  (r.fields.find? (fun p => p.1 == name)).map (fun p => p.2)

/-- The `Stock` document built by the pipeline (schema of `model.js`); an
absent CSV column leaves `symbol`/`series` as `undefined` (`none`). -/
structure Stock where
  date : String
  symbol : Option String
  series : Option String
  prev_close : JsNum
  open_ : JsNum
  high : JsNum
  low : JsNum
  last : JsNum
  close : JsNum
  vwap : JsNum
  volume : JsNum
  turnover : JsNum
  trades : JsNum
  deliverable : JsNum
  percent_deliverable : JsNum

/-- The `new Stock({...})` construction of the accepted-row branch. -/
def mkStock (row : Row) : Stock :=
  { date := momentFormatYMD (row.get? "Date")
    symbol := row.get? "Symbol"
    series := row.get? "Series"
    prev_close := jsParseFloat (row.get? "Prev Close")
    open_ := jsParseFloat (row.get? "Open")
    high := jsParseFloat (row.get? "High")
    low := jsParseFloat (row.get? "Low")
    last := jsParseFloat (row.get? "Last")
    close := jsParseFloat (row.get? "Close")
    vwap := jsParseFloat (row.get? "VWAP")
    volume := jsParseInt (row.get? "Volume")
    turnover := jsParseFloat (row.get? "Turnover")
    trades := jsParseInt (row.get? "Trades")
    deliverable := jsParseInt (row.get? "Deliverable Volume")
    percent_deliverable := jsParseFloat (row.get? "%Deliverble") }

/-- The source's `REQUIRED_COLUMNS` array. -/
def REQUIRED_COLUMNS : List String :=
  ["Date", "Symbol", "Series", "Prev Close", "Open", "High", "Low",
   "Last", "Close", "VWAP", "Volume", "Turnover", "Trades",
   "Deliverable Volume", "%Deliverble"]

/-- The source's `numericFields` array. -/
def numericFields : List String :=
  ["Prev Close", "Open", "High", "Low",
   "Last", "Close", "VWAP", "Volume",
   "Turnover", "Trades", "Deliverable Volume", "%Deliverble"]

/-- Reason string `Invalid date format in row {n}`. -/
def dateMsg (n : Nat) : String :=
  "Invalid date format in row " ++ toString n

/-- Reason string `Invalid number in field '{field}' in row {n}`. -/
def numMsg (field : String) (n : Nat) : String :=
  "Invalid number in field " ++ squote ++ field ++ squote ++ " in row " ++ toString n

/-- Reason string `Error saving record in row {n}: {err.message}`. -/
def saveMsg (n : Nat) (e : String) : String :=
  "Error saving record in row " ++ toString n ++ ": " ++ e

/-- Insertion into the `failurereasons` JavaScript `Set`: iteration order is
insertion order, and adding an element already present changes nothing. -/
def insertSet (l : List String) (e : String) : List String :=
  if l.contains e then l else l ++ [e]

/-- Mutable state of one `validateCSVAndStoreCSV` invocation: the `length`,
`numberoffailedrecords`, `numberofsucceedrecords` counters, the
`failurereasons` set (in insertion order) and the `errors` array. -/
structure PState where
  length : Nat
  numberoffailedrecords : Nat
  numberofsucceedrecords : Nat
  failurereasons : List String
  errors : List String
deriving DecidableEq

/-- State at the start of an invocation. -/
def initialState : PState := ⟨0, 0, 0, [], []⟩

/-- The source's `failurereasons.add(error); errors.push(error)` pair. -/
def addError (s : PState) (e : String) : PState :=
  { s with failurereasons := insertSet s.failurereasons e, errors := s.errors ++ [e] }

/-- The `isValidDate` check: `dateFormats.some(format => moment(row.Date,
format, true).isValid())`. -/
def rowIsValidDate (row : Row) : Bool :=
  dateFormats.any (fun f => momentIsValid (row.get? "Date") f)

/-- The per-field numeric failure test: `isNaN(parseFloat(value)) ||
value === ''`. -/
def checkNumericFails (row : Row) (field : String) : Bool :=
  let value := row.get? field
  jsIsNaN (jsParseFloat value) || value == some ""

/-- Validation portion of the `data` handler: the date check followed by the
`numericFields.forEach` loop, threading the state and the `recordfailed`
flag. -/
def rowValidationState (row : Row) (n : Nat) (s : PState) : PState × Bool :=
  let start : PState × Bool :=
    if !(rowIsValidDate row) then (addError s (dateMsg n), true) else (s, false)
  numericFields.foldl
    (fun p field =>
      if checkNumericFails row field then (addError p.1 (numMsg field n), true) else p)
    start

/-- Per-call outcome of `stockData.save()`, the injected persistence sink:
success, or failure with the adapter's error message.  The sink is keyed by
the 1-based row index together with the record handed over. -/
def SaveResult := Except String Unit

/-- The `data` event handler for one row, with the `await stockData.save()`
continuation run in place (all persistence results landed before `end`). -/
def processRow (sink : Nat → Stock → Except String Unit) (s : PState) (row : Row) : PState :=
  let n := s.length + 1
  let s1 : PState := { s with length := n }
  let vs := rowValidationState row n s1
  if vs.2 then
    { vs.1 with numberoffailedrecords := vs.1.numberoffailedrecords + 1 }
  else
    match sink n (mkStock row) with
    | .ok _ => { vs.1 with numberofsucceedrecords := vs.1.numberofsucceedrecords + 1 }
    | .error e =>
      addError { vs.1 with numberoffailedrecords := vs.1.numberoffailedrecords + 1 }
        (saveMsg n e)

/-- Processing of the whole data-row stream. -/
def runRows (sink : Nat → Stock → Except String Unit) (rows : List Row) (s : PState) : PState :=
  rows.foldl (processRow sink) s

/-- The `columns` set after the `headers` event: each observed header name,
trimmed.  `none` models a stream with no header line, where the `headers`
event never fires and the set stays empty. -/
def observedColumns (header : Option (List String)) : List String :=
  (header.getD []).map jsTrim

/-- Settled outcome of the returned promise: rejection with the
missing-columns `Error`, rejection with the validation-errors result object,
or resolution with the `File validated successfully` object. -/
inductive CSVOutcome
  | missingColumnsError (message : String)
  | validationFailure (totalRecords failedRecords successfulRecords : Nat)
      (failureReasons : List String)
  | fileValidated (totalRecords failedRecords successfulRecords : Nat)
deriving DecidableEq

/-- The `end` event handler: the missing-columns check, the authoritative
recomputation `numberofsucceedrecords = length - numberoffailedrecords`, and
the choice between the failure and success payloads. -/
def finalizeReport (columns : List String) (s : PState) : CSVOutcome :=
  if 0 < (REQUIRED_COLUMNS.filter (fun col => !(columns.contains col))).length then
    .missingColumnsError
      ("Missing columns: " ++
        joinComma (REQUIRED_COLUMNS.filter (fun col => !(columns.contains col))))
  else if 0 < s.errors.length then
    .validationFailure s.length s.numberoffailedrecords
      (s.length - s.numberoffailedrecords) s.failurereasons
  else
    .fileValidated s.length s.numberoffailedrecords
      (s.length - s.numberoffailedrecords)

/-- Whole pipeline on a parsed input, with every issued `save` resolved before
the `end` handler runs (the ordering the specification demands). -/
def validateCSVAndStoreCSV (sink : Nat → Stock → Except String Unit)
    (header : Option (List String)) (rows : List Row) : CSVOutcome :=
  finalizeReport (observedColumns header) (runRows sink rows initialState)

/-- The `data` handler as Node actually schedules it: the handler's promise is
never awaited by the stream, so for an accepted row the continuation after
`await stockData.save()` (the success/failure bookkeeping) has run by the time
`end` fires only when the event-loop interleaving `done` says so; a
continuation that runs later can no longer affect the already-settled
report. -/
def processRowRacy (sink : Nat → Stock → Except String Unit) (done : Nat → Bool)
    (s : PState) (row : Row) : PState :=
  let n := s.length + 1
  let s1 : PState := { s with length := n }
  let vs := rowValidationState row n s1
  if vs.2 then
    { vs.1 with numberoffailedrecords := vs.1.numberoffailedrecords + 1 }
  else if done n then
    match sink n (mkStock row) with
    | .ok _ => { vs.1 with numberofsucceedrecords := vs.1.numberofsucceedrecords + 1 }
    | .error e =>
      addError { vs.1 with numberoffailedrecords := vs.1.numberoffailedrecords + 1 }
        (saveMsg n e)
  else vs.1

/-- Whole pipeline under an event-loop interleaving in which the save
continuations of the rows selected by `done` have landed before `end` fires. -/
def validateRacyCSV (sink : Nat → Stock → Except String Unit) (done : Nat → Bool)
    (header : Option (List String)) (rows : List Row) : CSVOutcome :=
  finalizeReport (observedColumns header) (rows.foldl (processRowRacy sink done) initialState)

/-- Effect of a sequence of `failurereasons.add` / `errors.push` pairs on the
state, used to characterise the validation loop. -/
def appendErrors (s : PState) (l : List String) : PState :=
  { s with failurereasons := l.foldl insertSet s.failurereasons, errors := s.errors ++ l }

/-- The reasons the numeric `forEach` loop records for one row: one exact
message per failing numeric field, in field order. -/
def rowNumericErrors (row : Row) (n : Nat) : List String :=
  (numericFields.filter (fun f => checkNumericFails row f)).map (fun f => numMsg f n)

/-- All reasons the validation portion records for one row: the date reason,
if any, followed by the numeric-field reasons. -/
def rowValErrors (row : Row) (n : Nat) : List String :=
  (if rowIsValidDate row then [] else [dateMsg n]) ++ rowNumericErrors row n

/-- The `recordfailed` flag after all thirteen checks of one row. -/
def rowRejected (row : Row) : Bool :=
  !(rowIsValidDate row) || numericFields.any (fun f => checkNumericFails row f)

/-- The columns row validation reads: the date column and the twelve numeric
columns (`Symbol` and `Series` are not among them). -/
def checkedColumns : List String := "Date" :: numericFields

/-- First-occurrence deduplication with an explicit set of already-seen
strings: a string equal (by text) to a seen one is dropped, otherwise it is
kept and remembered. -/
def dedupFirstAux (seen : List String) : List String → List String
  | [] => []
  | a :: l => if seen.contains a then dedupFirstAux seen l else a :: dedupFirstAux (a :: seen) l

/-- Deduplication by exact text equality keeping the first occurrence of each
distinct string, in first-insertion order. -/
def dedupFirst (l : List String) : List String := dedupFirstAux [] l

/-- The count fields named by the specification: volume, trades and
deliverable volume are described as integer counts. -/
def countFields : List String := ["Volume", "Trades", "Deliverable Volume"]

/-- Modelled from the spec wording of C3: a raw string parses as a finite
decimal when the JavaScript numeric parse yields a finite value — NaN and the
infinities do not qualify. -/
def specFiniteDecimal (s : String) : Bool :=
  match jsParseFloat (some s) with
  | .num _ => true
  | _ => false

/-- Modelled from the spec wording of C3: a raw string parses as an integer
when, after an optional sign, it consists of one or more decimal digits. -/
def specIntegerLiteral (s : String) : Bool :=
  let l : List Char :=
    match s.data with
    | '-' :: r => r
    | '+' :: r => r
    | _ => s.data
  !l.isEmpty && l.all Char.isDigit

/-- Modelled from the spec wording of C3: the field value is accepted iff the
raw string is non-empty and parses as a finite decimal (and, for the count
fields, as an integer). -/
def specNumericAccept (field : String) (value : Option String) : Bool :=
  match value with
  | none => false
  | some s =>
    !(s == "") && specFiniteDecimal s &&
      (!(countFields.contains field) || specIntegerLiteral s)

/-- Acceptance condition the code actually implements for a numeric field:
the value is present, non-empty, and `parseFloat` on it is not NaN (an
infinite parse result passes, and no integer check is applied). -/
def jsNumericAccept (value : Option String) : Bool :=
  match value with
  | none => false
  | some s => !(s == "") && !(jsIsNaN (jsParseFloat (some s)))

/-- A header line containing all fifteen required columns. -/
def hdr15 : List String :=
  ["Date", "Symbol", "Series", "Prev Close", "Open", "High", "Low",
   "Last", "Close", "VWAP", "Volume", "Turnover", "Trades",
   "Deliverable Volume", "%Deliverble"]

/-- A header line missing the `Series` column. -/
def hdrNoSeries : List String :=
  ["Date", "Symbol", "Prev Close", "Open", "High", "Low",
   "Last", "Close", "VWAP", "Volume", "Turnover", "Trades",
   "Deliverable Volume", "%Deliverble"]

/-- The valid scenario row of the specification. -/
def goodRow : Row := ⟨[("Date", "2024-01-01"), ("Symbol", "ABC"), ("Series", "EQ"),
  ("Prev Close", "100"), ("Open", "101"), ("High", "102"), ("Low", "99"),
  ("Last", "101"), ("Close", "102"), ("VWAP", "101.5"), ("Volume", "1000"),
  ("Turnover", "10000"), ("Trades", "10"), ("Deliverable Volume", "500"),
  ("%Deliverble", "50.0")]⟩

/-- The invalid scenario row of the specification: date `InvalidDate` and
`Prev Close` equal to `abc`. -/
def badRow : Row := ⟨[("Date", "InvalidDate"), ("Symbol", "ABC"), ("Series", "EQ"),
  ("Prev Close", "abc"), ("Open", "101"), ("High", "102"), ("Low", "99"),
  ("Last", "101"), ("Close", "102"), ("VWAP", "101.5"), ("Volume", "1000"),
  ("Turnover", "10000"), ("Trades", "10"), ("Deliverable Volume", "500"),
  ("%Deliverble", "50.0")]⟩

/-- The valid scenario row with its `Open` value replaced by `Infinity`. -/
def rowOpenInf : Row := ⟨[("Date", "2024-01-01"), ("Symbol", "ABC"), ("Series", "EQ"),
  ("Prev Close", "100"), ("Open", "Infinity"), ("High", "102"), ("Low", "99"),
  ("Last", "101"), ("Close", "102"), ("VWAP", "101.5"), ("Volume", "1000"),
  ("Turnover", "10000"), ("Trades", "10"), ("Deliverable Volume", "500"),
  ("%Deliverble", "50.0")]⟩

/-- The valid scenario row with its `Volume` value replaced by `2.5`. -/
def rowVolHalf : Row := ⟨[("Date", "2024-01-01"), ("Symbol", "ABC"), ("Series", "EQ"),
  ("Prev Close", "100"), ("Open", "101"), ("High", "102"), ("Low", "99"),
  ("Last", "101"), ("Close", "102"), ("VWAP", "101.5"), ("Volume", "2.5"),
  ("Turnover", "10000"), ("Trades", "10"), ("Deliverable Volume", "500"),
  ("%Deliverble", "50.0")]⟩

/-- The valid scenario row with no `Symbol` cell at all. -/
def rowNoSymbol : Row := ⟨[("Date", "2024-01-01"), ("Series", "EQ"),
  ("Prev Close", "100"), ("Open", "101"), ("High", "102"), ("Low", "99"),
  ("Last", "101"), ("Close", "102"), ("VWAP", "101.5"), ("Volume", "1000"),
  ("Turnover", "10000"), ("Trades", "10"), ("Deliverable Volume", "500"),
  ("%Deliverble", "50.0")]⟩

/-- A persistence sink whose every `save` resolves. -/
def sinkOk : Nat → Stock → Except String Unit := fun _ _ => .ok ()

/-- A persistence sink whose every `save` rejects with message `boom`. -/
def sinkBoom : Nat → Stock → Except String Unit := fun _ _ => .error "boom"

theorem addError_eq_appendErrors (s : PState) (e : String) : addError s e = appendErrors s [e] := rfl

@[simp]
theorem appendErrors_nil (s : PState) : appendErrors s [] = s := by
  simp [appendErrors]

theorem appendErrors_append (s : PState) (l1 l2 : List String) :
    appendErrors (appendErrors s l1) l2 = appendErrors s (l1 ++ l2) := by
  simp [appendErrors, List.foldl_append]

@[simp]
theorem appendErrors_length (s : PState) (l : List String) :
    (appendErrors s l).length = s.length := rfl

@[simp]
theorem appendErrors_failed (s : PState) (l : List String) :
    (appendErrors s l).numberoffailedrecords = s.numberoffailedrecords := rfl

@[simp]
theorem appendErrors_succeed (s : PState) (l : List String) :
    (appendErrors s l).numberofsucceedrecords = s.numberofsucceedrecords := rfl

theorem numericFold_eq (row : Row) (n : Nat) (fields : List String) (s : PState) (b : Bool) :
    fields.foldl
      (fun p field =>
        if checkNumericFails row field then (addError p.1 (numMsg field n), true) else p)
      (s, b)
    = (appendErrors s ((fields.filter (fun f => checkNumericFails row f)).map (fun f => numMsg f n)),
       b || fields.any (fun f => checkNumericFails row f)) := by
  induction fields generalizing s b with
  | nil => simp
  | cons f fs ih =>
    cases h : checkNumericFails row f
    · simp only [List.foldl_cons, h, Bool.false_eq_true, if_false, List.filter_cons, List.any_cons,
        Bool.false_or]
      exact ih s b
    · simp only [List.foldl_cons, h, if_true, List.filter_cons, List.any_cons, List.map_cons,
        Bool.true_or, Bool.or_true]
      rw [ih, addError_eq_appendErrors, appendErrors_append]
      simp

theorem rowValidationState_eq (row : Row) (n : Nat) (s : PState) :
    rowValidationState row n s = (appendErrors s (rowValErrors row n), rowRejected row) := by
  unfold rowValidationState
  cases hv : rowIsValidDate row
  · simp only [hv, Bool.not_false, if_true]
    rw [numericFold_eq, addError_eq_appendErrors, appendErrors_append]
    unfold rowValErrors rowNumericErrors rowRejected
    simp [hv]
  · simp only [hv, Bool.not_true, Bool.false_eq_true, if_false]
    rw [numericFold_eq]
    unfold rowValErrors rowNumericErrors rowRejected
    simp [hv]

theorem rowRejected_false (row : Row) (h : rowRejected row = false) :
    rowIsValidDate row = true ∧ ∀ f ∈ numericFields, checkNumericFails row f = false := by
  unfold rowRejected at h
  simp only [Bool.or_eq_false_iff, Bool.not_eq_false', List.any_eq_false] at h
  exact ⟨h.1, fun f hf => by simpa using h.2 f hf⟩

theorem rowValErrors_of_accepted (row : Row) (n : Nat) (h : rowRejected row = false) :
    rowValErrors row n = [] := by
  obtain ⟨hv, hn⟩ := rowRejected_false row h
  unfold rowValErrors rowNumericErrors
  rw [hv, List.filter_eq_nil_iff.mpr (fun f hf => by simp [hn f hf])]
  simp

theorem processRow_rejected (sink : Nat → Stock → Except String Unit) (s : PState) (row : Row)
    (h : rowRejected row = true) :
    processRow sink s row =
      { length := s.length + 1,
        numberoffailedrecords := s.numberoffailedrecords + 1,
        numberofsucceedrecords := s.numberofsucceedrecords,
        failurereasons := (rowValErrors row (s.length + 1)).foldl insertSet s.failurereasons,
        errors := s.errors ++ rowValErrors row (s.length + 1) } := by
  simp only [processRow]
  rw [rowValidationState_eq, h]
  simp [appendErrors]

theorem processRow_accepted (sink : Nat → Stock → Except String Unit) (s : PState) (row : Row)
    (h : rowRejected row = false) :
    processRow sink s row =
      match sink (s.length + 1) (mkStock row) with
      | .ok _ =>
        { s with length := s.length + 1,
                 numberofsucceedrecords := s.numberofsucceedrecords + 1 }
      | .error e =>
        { length := s.length + 1,
          numberoffailedrecords := s.numberoffailedrecords + 1,
          numberofsucceedrecords := s.numberofsucceedrecords,
          failurereasons := insertSet s.failurereasons (saveMsg (s.length + 1) e),
          errors := s.errors ++ [saveMsg (s.length + 1) e] } := by
  simp only [processRow]
  rw [rowValidationState_eq, h, rowValErrors_of_accepted row _ h]
  cases hs : sink (s.length + 1) (mkStock row) <;>
    simp [hs, addError, appendErrors]

theorem processRow_length (sink : Nat → Stock → Except String Unit) (s : PState) (row : Row) :
    (processRow sink s row).length = s.length + 1 := by
  cases h : rowRejected row
  · rw [processRow_accepted sink s row h]
    cases hs : sink (s.length + 1) (mkStock row) <;> simp
  · rw [processRow_rejected sink s row h]

theorem processRow_failed_le (sink : Nat → Stock → Except String Unit) (s : PState) (row : Row) :
    (processRow sink s row).numberoffailedrecords ≤ s.numberoffailedrecords + 1 := by
  cases h : rowRejected row
  · rw [processRow_accepted sink s row h]
    cases hs : sink (s.length + 1) (mkStock row) <;> simp
  · rw [processRow_rejected sink s row h]

theorem runRows_cons (sink : Nat → Stock → Except String Unit) (row : Row) (rest : List Row)
    (s : PState) : runRows sink (row :: rest) s = runRows sink rest (processRow sink s row) := rfl

theorem runRows_failed_le (sink : Nat → Stock → Except String Unit) (rows : List Row) :
    ∀ s : PState, s.numberoffailedrecords ≤ s.length →
      (runRows sink rows s).numberoffailedrecords ≤ (runRows sink rows s).length := by
  induction rows with
  | nil => exact fun s h => h
  | cons r rest ih =>
    intro s h
    rw [runRows_cons]
    apply ih
    calc (processRow sink s r).numberoffailedrecords
        ≤ s.numberoffailedrecords + 1 := processRow_failed_le sink s r
      _ ≤ s.length + 1 := by omega
      _ = (processRow sink s r).length := (processRow_length sink s r).symm

theorem contains_append_singleton (s : List String) (a x : String) :
    (s ++ [a]).contains x = (a :: s).contains x := by
  simp only [List.contains, List.elem_eq_mem]
  exact decide_eq_decide.mpr (by simp [or_comm])

theorem dedupFirstAux_congr (l : List String) : ∀ s1 s2 : List String,
    (∀ x, s1.contains x = s2.contains x) → dedupFirstAux s1 l = dedupFirstAux s2 l := by
  induction l with
  | nil => intro s1 s2 _; rfl
  | cons a l ih =>
    intro s1 s2 h
    simp only [dedupFirstAux]
    rw [h a]
    cases h2 : s2.contains a
    · simp only [Bool.false_eq_true, if_false]
      rw [ih (a :: s1) (a :: s2)
        (fun x => by simp only [List.contains_cons, h x])]
    · simp only [if_true]
      exact ih s1 s2 h

theorem foldl_insertSet_eq (l : List String) : ∀ acc : List String,
    l.foldl insertSet acc = acc ++ dedupFirstAux acc l := by
  induction l with
  | nil => intro acc; simp [dedupFirstAux]
  | cons a l ih =>
    intro acc
    simp only [List.foldl_cons, dedupFirstAux]
    cases h : acc.contains a
    · simp only [Bool.false_eq_true, if_false]
      rw [show insertSet acc a = acc ++ [a] from by unfold insertSet; rw [h]; simp]
      rw [ih (acc ++ [a]),
        dedupFirstAux_congr l (acc ++ [a]) (a :: acc)
          (fun x => contains_append_singleton acc a x)]
      simp
    · simp only [if_true]
      rw [show insertSet acc a = acc from by unfold insertSet; rw [h]; simp]
      exact ih acc

theorem addError_reasons (s : PState) (e : String)
    (h : s.failurereasons = s.errors.foldl insertSet []) :
    (addError s e).failurereasons = (addError s e).errors.foldl insertSet [] := by
  simp [addError, List.foldl_append, h]

theorem appendErrors_reasons (l : List String) : ∀ s : PState,
    s.failurereasons = s.errors.foldl insertSet [] →
    (appendErrors s l).failurereasons = (appendErrors s l).errors.foldl insertSet [] := by
  induction l with
  | nil => intro s h; simpa using h
  | cons e l ih =>
    intro s h
    have hsplit : appendErrors s (e :: l) = appendErrors (addError s e) l := by
      rw [addError_eq_appendErrors, appendErrors_append]; rfl
    rw [hsplit]
    exact ih _ (addError_reasons s e h)

theorem processRow_reasons (sink : Nat → Stock → Except String Unit) (s : PState) (row : Row)
    (h : s.failurereasons = s.errors.foldl insertSet []) :
    (processRow sink s row).failurereasons =
      (processRow sink s row).errors.foldl insertSet [] := by
  cases hr : rowRejected row
  · rw [processRow_accepted sink s row hr]
    cases hs : sink (s.length + 1) (mkStock row)
    · simp only [List.foldl_append, List.foldl_cons, List.foldl_nil]
      rw [h]
    · simpa using h
  · rw [processRow_rejected sink s row hr]
    simp only [List.foldl_append]
    rw [h]

theorem runRows_reasons (sink : Nat → Stock → Except String Unit) (rows : List Row) :
    ∀ s : PState, s.failurereasons = s.errors.foldl insertSet [] →
    (runRows sink rows s).failurereasons = (runRows sink rows s).errors.foldl insertSet [] := by
  induction rows with
  | nil => exact fun s h => h
  | cons r rest ih =>
    intro s h
    rw [runRows_cons]
    exact ih _ (processRow_reasons sink s r h)

theorem runRows_reasons_dedup (sink : Nat → Stock → Except String Unit) (rows : List Row) :
    (runRows sink rows initialState).failurereasons =
      dedupFirst ((runRows sink rows initialState).errors) := by
  rw [runRows_reasons sink rows initialState rfl, dedupFirst, foldl_insertSet_eq]
  simp

theorem numMsg_inj (f1 f2 : String) (n : Nat) (h : numMsg f1 n = numMsg f2 n) : f1 = f2 := by
  have hd := congrArg String.data h
  simp only [numMsg, String.data_append, List.append_assoc] at hd
  have h2 := List.append_cancel_left hd
  have h3 := List.append_cancel_left h2
  have h4 : f1.data = f2.data := List.append_cancel_right h3
  cases f1; cases f2; exact congrArg String.mk h4

theorem numericFields_nodup : numericFields.Nodup := by decide

theorem listAny_congr (p q : String → Bool) (l : List String) (h : ∀ a ∈ l, p a = q a) :
    l.any p = l.any q := by
  induction l with
  | nil => rfl
  | cons x xs ih =>
    simp only [List.any_cons]
    rw [h x (by simp), ih (fun a ha => h a (by simp [ha]))]

theorem char_digit_facts (c : Char) (h : c.isDigit = true) :
    digitChar (c.toNat - 48) = c ∧ 48 ≤ c.toNat ∧ c.toNat ≤ 57 := by
  have hb : 48 ≤ c.toNat ∧ c.toNat ≤ 57 := by
    simpa [Char.isDigit] using h
  refine ⟨?_, hb.1, hb.2⟩
  unfold digitChar
  rw [show 48 + (c.toNat - 48) = c.toNat from by omega, Char.ofNat_toNat]

theorem digitsVal_four (c0 c1 c2 c3 : Char) :
    digitsVal [c0, c1, c2, c3] =
      1000 * (c0.toNat - 48) + 100 * (c1.toNat - 48) + 10 * (c2.toNat - 48) + (c3.toNat - 48) := by
  simp only [digitsVal, List.foldl]
  ring

theorem digitsVal_two (c0 c1 : Char) :
    digitsVal [c0, c1] = 10 * (c0.toNat - 48) + (c1.toNat - 48) := by
  simp only [digitsVal, List.foldl]
  ring

theorem zeroPad4_digits (c0 c1 c2 c3 : Char) (h0 : c0.isDigit = true) (h1 : c1.isDigit = true)
    (h2 : c2.isDigit = true) (h3 : c3.isDigit = true) :
    zeroPad4 (digitsVal [c0, c1, c2, c3]) = String.mk [c0, c1, c2, c3] := by
  obtain ⟨e0, l0, u0⟩ := char_digit_facts c0 h0
  obtain ⟨e1, l1, u1⟩ := char_digit_facts c1 h1
  obtain ⟨e2, l2, u2⟩ := char_digit_facts c2 h2
  obtain ⟨e3, l3, u3⟩ := char_digit_facts c3 h3
  unfold zeroPad4
  rw [digitsVal_four]
  rw [show (1000 * (c0.toNat - 48) + 100 * (c1.toNat - 48) + 10 * (c2.toNat - 48) +
      (c3.toNat - 48)) / 1000 % 10 = c0.toNat - 48 from by omega]
  rw [show (1000 * (c0.toNat - 48) + 100 * (c1.toNat - 48) + 10 * (c2.toNat - 48) +
      (c3.toNat - 48)) / 100 % 10 = c1.toNat - 48 from by omega]
  rw [show (1000 * (c0.toNat - 48) + 100 * (c1.toNat - 48) + 10 * (c2.toNat - 48) +
      (c3.toNat - 48)) / 10 % 10 = c2.toNat - 48 from by omega]
  rw [show (1000 * (c0.toNat - 48) + 100 * (c1.toNat - 48) + 10 * (c2.toNat - 48) +
      (c3.toNat - 48)) % 10 = c3.toNat - 48 from by omega]
  rw [e0, e1, e2, e3]

theorem zeroPad2_digits (c0 c1 : Char) (h0 : c0.isDigit = true) (h1 : c1.isDigit = true) :
    zeroPad2 (digitsVal [c0, c1]) = String.mk [c0, c1] := by
  obtain ⟨e0, l0, u0⟩ := char_digit_facts c0 h0
  obtain ⟨e1, l1, u1⟩ := char_digit_facts c1 h1
  unfold zeroPad2
  rw [digitsVal_two]
  rw [show (10 * (c0.toNat - 48) + (c1.toNat - 48)) / 10 % 10 = c0.toNat - 48 from by omega]
  rw [show (10 * (c0.toNat - 48) + (c1.toNat - 48)) % 10 = c1.toNat - 48 from by omega]
  rw [e0, e1]

theorem ymd_shape (s : String) (y m d : Nat) (hp : parseWithFormat .ymd s = some (y, m, d)) :
    ∃ c0 c1 c2 c3 c5 c6 c8 c9 : Char,
      s.data = [c0, c1, c2, c3, '-', c5, c6, '-', c8, c9] ∧
      c0.isDigit = true ∧ c1.isDigit = true ∧ c2.isDigit = true ∧ c3.isDigit = true ∧
      c5.isDigit = true ∧ c6.isDigit = true ∧ c8.isDigit = true ∧ c9.isDigit = true ∧
      y = digitsVal [c0, c1, c2, c3] ∧ m = digitsVal [c5, c6] ∧ d = digitsVal [c8, c9] := by
  obtain ⟨data⟩ := s
  rcases data with _ | ⟨c0, data⟩; · simp [parseWithFormat] at hp
  rcases data with _ | ⟨c1, data⟩; · simp [parseWithFormat] at hp
  rcases data with _ | ⟨c2, data⟩; · simp [parseWithFormat] at hp
  rcases data with _ | ⟨c3, data⟩; · simp [parseWithFormat] at hp
  rcases data with _ | ⟨c4, data⟩; · simp [parseWithFormat] at hp
  rcases data with _ | ⟨c5, data⟩; · simp [parseWithFormat] at hp
  rcases data with _ | ⟨c6, data⟩; · simp [parseWithFormat] at hp
  rcases data with _ | ⟨c7, data⟩; · simp [parseWithFormat] at hp
  rcases data with _ | ⟨c8, data⟩; · simp [parseWithFormat] at hp
  rcases data with _ | ⟨c9, data⟩; · simp [parseWithFormat] at hp
  rcases data with _ | ⟨c10, data⟩
  · simp only [parseWithFormat] at hp
    split at hp
    · next hg =>
      simp only [Bool.and_eq_true, beq_iff_eq] at hg
      obtain ⟨⟨⟨⟨⟨⟨⟨⟨⟨hd0, hd1⟩, hd2⟩, hd3⟩, hs1⟩, hd5⟩, hd6⟩, hs2⟩, hd8⟩, hd9⟩ := hg
      simp only [Option.some.injEq, Prod.mk.injEq] at hp
      obtain ⟨hy, hm, hd⟩ := hp
      subst hs1 hs2
      exact ⟨c0, c1, c2, c3, c5, c6, c8, c9, rfl, hd0, hd1, hd2, hd3, hd5, hd6, hd8, hd9,
        hy.symm, hm.symm, hd.symm⟩
    · simp at hp
  · simp [parseWithFormat] at hp

theorem mdy_shape (s : String) (y m d : Nat) (hp : parseWithFormat .mdy s = some (y, m, d)) :
    ∃ c0 c1 c3 c4 c6 c7 c8 c9 : Char,
      s.data = [c0, c1, '/', c3, c4, '/', c6, c7, c8, c9] ∧
      c0.isDigit = true ∧ c1.isDigit = true ∧ c3.isDigit = true ∧ c4.isDigit = true ∧
      c6.isDigit = true ∧ c7.isDigit = true ∧ c8.isDigit = true ∧ c9.isDigit = true := by
  obtain ⟨data⟩ := s
  rcases data with _ | ⟨c0, data⟩; · simp [parseWithFormat] at hp
  rcases data with _ | ⟨c1, data⟩; · simp [parseWithFormat] at hp
  rcases data with _ | ⟨c2, data⟩; · simp [parseWithFormat] at hp
  rcases data with _ | ⟨c3, data⟩; · simp [parseWithFormat] at hp
  rcases data with _ | ⟨c4, data⟩; · simp [parseWithFormat] at hp
  rcases data with _ | ⟨c5, data⟩; · simp [parseWithFormat] at hp
  rcases data with _ | ⟨c6, data⟩; · simp [parseWithFormat] at hp
  rcases data with _ | ⟨c7, data⟩; · simp [parseWithFormat] at hp
  rcases data with _ | ⟨c8, data⟩; · simp [parseWithFormat] at hp
  rcases data with _ | ⟨c9, data⟩; · simp [parseWithFormat] at hp
  rcases data with _ | ⟨c10, data⟩
  · simp only [parseWithFormat] at hp
    split at hp
    · next hg =>
      simp only [Bool.and_eq_true, beq_iff_eq] at hg
      obtain ⟨⟨⟨⟨⟨⟨⟨⟨⟨hd0, hd1⟩, hs1⟩, hd3⟩, hd4⟩, hs2⟩, hd6⟩, hd7⟩, hd8⟩, hd9⟩ := hg
      subst hs1 hs2
      exact ⟨c0, c1, c3, c4, c6, c7, c8, c9, rfl, hd0, hd1, hd3, hd4, hd6, hd7, hd8, hd9⟩
    · simp at hp
  · simp [parseWithFormat] at hp

theorem dmy_shape (s : String) (y m d : Nat) (hp : parseWithFormat .dmy s = some (y, m, d)) :
    ∃ c0 c1 c3 c4 c6 c7 c8 c9 : Char,
      s.data = [c0, c1, '-', c3, c4, '-', c6, c7, c8, c9] ∧
      c0.isDigit = true ∧ c1.isDigit = true ∧ c3.isDigit = true ∧ c4.isDigit = true ∧
      c6.isDigit = true ∧ c7.isDigit = true ∧ c8.isDigit = true ∧ c9.isDigit = true := by
  obtain ⟨data⟩ := s
  rcases data with _ | ⟨c0, data⟩; · simp [parseWithFormat] at hp
  rcases data with _ | ⟨c1, data⟩; · simp [parseWithFormat] at hp
  rcases data with _ | ⟨c2, data⟩; · simp [parseWithFormat] at hp
  rcases data with _ | ⟨c3, data⟩; · simp [parseWithFormat] at hp
  rcases data with _ | ⟨c4, data⟩; · simp [parseWithFormat] at hp
  rcases data with _ | ⟨c5, data⟩; · simp [parseWithFormat] at hp
  rcases data with _ | ⟨c6, data⟩; · simp [parseWithFormat] at hp
  rcases data with _ | ⟨c7, data⟩; · simp [parseWithFormat] at hp
  rcases data with _ | ⟨c8, data⟩; · simp [parseWithFormat] at hp
  rcases data with _ | ⟨c9, data⟩; · simp [parseWithFormat] at hp
  rcases data with _ | ⟨c10, data⟩
  · simp only [parseWithFormat] at hp
    split at hp
    · next hg =>
      simp only [Bool.and_eq_true, beq_iff_eq] at hg
      obtain ⟨⟨⟨⟨⟨⟨⟨⟨⟨hd0, hd1⟩, hs1⟩, hd3⟩, hd4⟩, hs2⟩, hd6⟩, hd7⟩, hd8⟩, hd9⟩ := hg
      subst hs1 hs2
      exact ⟨c0, c1, c3, c4, c6, c7, c8, c9, rfl, hd0, hd1, hd3, hd4, hd6, hd7, hd8, hd9⟩
    · simp at hp
  · simp [parseWithFormat] at hp

theorem ymd_roundtrip (s : String) (y m d : Nat)
    (hp : parseWithFormat .ymd s = some (y, m, d)) :
    zeroPad4 y ++ "-" ++ zeroPad2 m ++ "-" ++ zeroPad2 d = s := by
  obtain ⟨c0, c1, c2, c3, c5, c6, c8, c9, hdata, hd0, hd1, hd2, hd3, hd5, hd6, hd8, hd9,
    hy, hm, hd⟩ := ymd_shape s y m d hp
  subst hy hm hd
  rw [zeroPad4_digits c0 c1 c2 c3 hd0 hd1 hd2 hd3, zeroPad2_digits c5 c6 hd5 hd6,
    zeroPad2_digits c8 c9 hd8 hd9]
  have hs : s = String.mk [c0, c1, c2, c3, '-', c5, c6, '-', c8, c9] := by
    cases s; exact congrArg String.mk hdata
  rw [hs]
  rfl

theorem formats_exclusive (s : String) (f g : DateFormat)
    (hf : momentIsValid (some s) f = true) (hg : momentIsValid (some s) g = true) : f = g := by
  have shape : ∀ fm : DateFormat, momentIsValid (some s) fm = true →
      ∃ t : Nat × Nat × Nat, parseWithFormat fm s = some t := by
    intro fm hv
    have hred : momentIsValid (some s) fm =
        match parseWithFormat fm s with
        | some (y, m, d) => dateValid y m d
        | none => false := rfl
    rw [hred] at hv
    cases hq : parseWithFormat fm s with
    | none => rw [hq] at hv; simp at hv
    | some t => exact ⟨t, rfl⟩
  obtain ⟨⟨y1, m1, d1⟩, hpf⟩ := shape f hf
  obtain ⟨⟨y2, m2, d2⟩, hpg⟩ := shape g hg
  cases f <;> cases g <;> try rfl
  · -- ymd vs mdy: position 2 is a digit in one, '/' in the other
    obtain ⟨a0, a1, a2, a3, a5, a6, a8, a9, ha, hA0, hA1, hA2, -⟩ := ymd_shape s y1 m1 d1 hpf
    obtain ⟨b0, b1, b3, b4, b6, b7, b8, b9, hb, -⟩ := mdy_shape s y2 m2 d2 hpg
    rw [ha] at hb
    simp only [List.cons.injEq, and_true] at hb
    obtain ⟨-, -, h2, -⟩ := hb
    rw [h2] at hA2
    exact absurd hA2 (by decide)
  · -- ymd vs dmy: position 2 is a digit in one, '-' in the other
    obtain ⟨a0, a1, a2, a3, a5, a6, a8, a9, ha, hA0, hA1, hA2, -⟩ := ymd_shape s y1 m1 d1 hpf
    obtain ⟨b0, b1, b3, b4, b6, b7, b8, b9, hb, -⟩ := dmy_shape s y2 m2 d2 hpg
    rw [ha] at hb
    simp only [List.cons.injEq, and_true] at hb
    obtain ⟨-, -, h2, -⟩ := hb
    rw [h2] at hA2
    exact absurd hA2 (by decide)
  · -- mdy vs ymd
    obtain ⟨a0, a1, a2, a3, a5, a6, a8, a9, ha, hA0, hA1, hA2, -⟩ := ymd_shape s y2 m2 d2 hpg
    obtain ⟨b0, b1, b3, b4, b6, b7, b8, b9, hb, -⟩ := mdy_shape s y1 m1 d1 hpf
    rw [ha] at hb
    simp only [List.cons.injEq, and_true] at hb
    obtain ⟨-, -, h2, -⟩ := hb
    rw [h2] at hA2
    exact absurd hA2 (by decide)
  · -- mdy vs dmy: position 2 is '/' in one, '-' in the other
    obtain ⟨a0, a1, a3, a4, a6, a7, a8, a9, ha, -⟩ := mdy_shape s y1 m1 d1 hpf
    obtain ⟨b0, b1, b3, b4, b6, b7, b8, b9, hb, -⟩ := dmy_shape s y2 m2 d2 hpg
    rw [ha] at hb
    simp only [List.cons.injEq, and_true] at hb
    obtain ⟨-, -, h2, -⟩ := hb
    exact absurd h2 (by decide)
  · -- dmy vs ymd
    obtain ⟨a0, a1, a2, a3, a5, a6, a8, a9, ha, hA0, hA1, hA2, -⟩ := ymd_shape s y2 m2 d2 hpg
    obtain ⟨b0, b1, b3, b4, b6, b7, b8, b9, hb, -⟩ := dmy_shape s y1 m1 d1 hpf
    rw [ha] at hb
    simp only [List.cons.injEq, and_true] at hb
    obtain ⟨-, -, h2, -⟩ := hb
    rw [h2] at hA2
    exact absurd hA2 (by decide)
  · -- dmy vs mdy
    obtain ⟨a0, a1, a3, a4, a6, a7, a8, a9, ha, -⟩ := dmy_shape s y1 m1 d1 hpf
    obtain ⟨b0, b1, b3, b4, b6, b7, b8, b9, hb, -⟩ := mdy_shape s y2 m2 d2 hpg
    rw [ha] at hb
    simp only [List.cons.injEq, and_true] at hb
    obtain ⟨-, -, h2, -⟩ := hb
    exact absurd h2 (by decide)

theorem momentParseFirst_ymd (s : String) (y m d : Nat)
    (hp : parseWithFormat .ymd s = some (y, m, d)) (hv : dateValid y m d = true) :
    momentParseFirst s = some (y, m, d) := by
  unfold momentParseFirst dateFormats
  simp [List.findSome?, hp, hv]

theorem momentFormatYMD_of_ymd (s : String) (y m d : Nat)
    (hp : parseWithFormat .ymd s = some (y, m, d)) (hv : dateValid y m d = true) :
    momentFormatYMD (some s) = s := by
  have hred : momentFormatYMD (some s) =
      match momentParseFirst s with
      | some (y, m, d) => zeroPad4 y ++ "-" ++ zeroPad2 m ++ "-" ++ zeroPad2 d
      | none => "Invalid date" := rfl
  rw [hred, momentParseFirst_ymd s y m d hp hv]
  exact ymd_roundtrip s y m d hp

/-- C1: for every input whose header contains all fifteen required columns,
the final report — success or validation failure — satisfies
successfulRecords + failedRecords = totalRecords, with successfulRecords
recomputed at stream end as total minus failed rather than taken from the
incremental success counter. -/
theorem c1_counts_reconciled (sink : Nat → Stock → Except String Unit)
    (header : Option (List String)) (rows : List Row)
    (hc : ∀ c ∈ REQUIRED_COLUMNS, (observedColumns header).contains c = true) :
    match validateCSVAndStoreCSV sink header rows with
    | .missingColumnsError _ => False
    | .validationFailure t f sr _ => sr + f = t ∧ sr = t - f
    | .fileValidated t f sr => sr + f = t ∧ sr = t - f := by
  have hm : REQUIRED_COLUMNS.filter (fun col => !((observedColumns header).contains col)) = [] := by
    rw [List.filter_eq_nil_iff]
    intro a ha
    simp only [Bool.not_eq_true', Bool.not_eq_false]
    exact hc a ha
  have hle := runRows_failed_le sink rows initialState (by simp [initialState])
  unfold validateCSVAndStoreCSV finalizeReport
  rw [hm]
  have h0 : ¬ (0 < ([] : List String).length) := by simp
  rw [if_neg h0]
  by_cases he : 0 < (runRows sink rows initialState).errors.length
  · rw [if_pos he]
    exact ⟨Nat.sub_add_cancel hle, rfl⟩
  · rw [if_neg he]
    exact ⟨Nat.sub_add_cancel hle, rfl⟩

/-- Witness for C1: the complete header with one valid row. -/
theorem c1_counts_reconciled_witness :
    match validateCSVAndStoreCSV sinkOk (some hdr15) [goodRow] with
    | .missingColumnsError _ => False
    | .validationFailure t f sr _ => sr + f = t ∧ sr = t - f
    | .fileValidated t f sr => sr + f = t ∧ sr = t - f :=
  c1_counts_reconciled sinkOk (some hdr15) [goodRow] (by decide)

/-- C2: whenever the trimmed observed header set misses at least one required
column, the batch outcome is the single missing-columns error naming the
comma-joined missing names, whatever the data rows were — no counts and no
row-level reasons appear. -/
theorem c2_missing_columns_supersede (sink : Nat → Stock → Except String Unit)
    (header : Option (List String)) (rows : List Row)
    (hm : REQUIRED_COLUMNS.filter (fun col => !((observedColumns header).contains col)) ≠ []) :
    validateCSVAndStoreCSV sink header rows =
      .missingColumnsError ("Missing columns: " ++
        joinComma (REQUIRED_COLUMNS.filter (fun col =>
          !((observedColumns header).contains col)))) := by
  unfold validateCSVAndStoreCSV finalizeReport
  rw [if_pos (List.length_pos.mpr hm)]

/-- Witness for C2: a header missing `Series`, with a fully valid data row. -/
theorem c2_missing_columns_supersede_witness :
    validateCSVAndStoreCSV sinkOk (some hdrNoSeries) [goodRow] =
      .missingColumnsError "Missing columns: Series" :=
  (c2_missing_columns_supersede sinkOk (some hdrNoSeries) [goodRow] (by decide)).trans
    (by decide)

/-- C3 counterexample: the code's numeric check accepts `Infinity` for the
decimal field `Open` and the non-integer `2.5` for the count field `Volume`
(whole rows carrying them are accepted), while the acceptance predicate the
claim states — non-empty, finite decimal, integer for count fields — rejects
both values. -/
theorem c3_counterexample :
    checkNumericFails rowOpenInf "Open" = false
    ∧ rowOpenInf.get? "Open" = some "Infinity"
    ∧ specNumericAccept "Open" (some "Infinity") = false
    ∧ checkNumericFails rowVolHalf "Volume" = false
    ∧ rowVolHalf.get? "Volume" = some "2.5"
    ∧ specNumericAccept "Volume" (some "2.5") = false
    ∧ rowRejected rowOpenInf = false
    ∧ rowRejected rowVolHalf = false := by decide

/-- C3 (amended): for every row and numeric field, the field is accepted iff
the raw value is present, non-empty and parses to a non-NaN JavaScript number
(infinite parse results pass and no integer check applies to the count
fields); a failing field contributes exactly one occurrence of the reason
`Invalid number in field '{field}' in row {n}`. -/
theorem c3_numeric_acceptance (row : Row) (field : String) (n : Nat)
    (hf : field ∈ numericFields) :
    (checkNumericFails row field = false ↔ jsNumericAccept (row.get? field) = true)
    ∧ (rowNumericErrors row n).count (numMsg field n) =
        (if checkNumericFails row field then 1 else 0) := by
  constructor
  · cases hv : row.get? field with
    | none =>
      simp only [checkNumericFails, jsNumericAccept, hv]
      decide
    | some str =>
      simp only [checkNumericFails, jsNumericAccept, hv]
      rw [show ((some str == some "") : Bool) = (str == "") from rfl]
      cases hn : jsIsNaN (jsParseFloat (some str)) <;> cases he : (str == "") <;> simp
  · unfold rowNumericErrors
    rw [List.count_map_of_injective _ _ (fun f1 f2 h12 => numMsg_inj f1 f2 n h12) field]
    cases h : checkNumericFails row field
    · simp only [Bool.false_eq_true, if_false]
      refine List.count_eq_zero_of_not_mem (fun hmem => ?_)
      rw [List.mem_filter] at hmem
      rw [h] at hmem
      exact absurd hmem.2 (by decide)
    · simp only [if_true]
      exact List.count_eq_one_of_mem (numericFields_nodup.filter _)
        (List.mem_filter.mpr ⟨hf, h⟩)

/-- Witness for C3 (amended): the `Prev Close` field of the invalid scenario
row. -/
theorem c3_numeric_acceptance_witness :
    (checkNumericFails badRow "Prev Close" = false ↔
      jsNumericAccept (badRow.get? "Prev Close") = true)
    ∧ (rowNumericErrors badRow 1).count (numMsg "Prev Close" 1) =
        (if checkNumericFails badRow "Prev Close" then 1 else 0) :=
  c3_numeric_acceptance badRow "Prev Close" 1 (by decide)

/-- C4: the date check and all twelve numeric checks run with no
short-circuit; a rejected row appends exactly one reason per failing field
— the date reason plus one per failing numeric column — and increments the
failed count by exactly one. -/
theorem c4_no_short_circuit (sink : Nat → Stock → Except String Unit) (s : PState) (row : Row)
    (h : rowRejected row = true) :
    processRow sink s row =
      { length := s.length + 1,
        numberoffailedrecords := s.numberoffailedrecords + 1,
        numberofsucceedrecords := s.numberofsucceedrecords,
        failurereasons := (rowValErrors row (s.length + 1)).foldl insertSet s.failurereasons,
        errors := s.errors ++ rowValErrors row (s.length + 1) }
    ∧ (rowValErrors row (s.length + 1)).length =
        (if rowIsValidDate row then 0 else 1) +
          (numericFields.filter (fun f => checkNumericFails row f)).length := by
  refine ⟨processRow_rejected sink s row h, ?_⟩
  unfold rowValErrors rowNumericErrors
  cases hv : rowIsValidDate row
  · simp
    omega
  · simp

/-- Witness for C4: the scenario row with an invalid date and an invalid
`Prev Close` produces exactly two reasons and one failed record. -/
theorem c4_no_short_circuit_witness :
    processRow sinkOk initialState badRow =
      ⟨1, 1, 0, [dateMsg 1, numMsg "Prev Close" 1], [dateMsg 1, numMsg "Prev Close" 1]⟩
    ∧ (rowValErrors badRow 1).length = 2 :=
  ⟨(c4_no_short_circuit sinkOk initialState badRow (by decide)).1.trans (by decide),
   (c4_no_short_circuit sinkOk initialState badRow (by decide)).2.trans (by decide)⟩

/-- C5: the failure-reason collection deduplicates by exact text equality —
adding an already-present string changes nothing — and the reported sequence
is the first-occurrence deduplication, in emission order, of every reason
recorded during the run. -/
theorem c5_reasons_dedup (sink : Nat → Stock → Except String Unit)
    (header : Option (List String)) (rows : List Row) :
    (runRows sink rows initialState).failurereasons =
      dedupFirst ((runRows sink rows initialState).errors)
    ∧ (∀ l : List String, ∀ e : String, l.contains e = true → insertSet l e = l)
    ∧ (match validateCSVAndStoreCSV sink header rows with
       | .validationFailure _ _ _ reasons =>
           reasons = dedupFirst ((runRows sink rows initialState).errors)
       | _ => True) := by
  refine ⟨runRows_reasons_dedup sink rows,
    fun l e he => by unfold insertSet; rw [he]; simp, ?_⟩
  unfold validateCSVAndStoreCSV finalizeReport
  by_cases h1 :
      0 < (REQUIRED_COLUMNS.filter (fun col => !((observedColumns header).contains col))).length
  · rw [if_pos h1]
    trivial
  · rw [if_neg h1]
    by_cases h2 : 0 < (runRows sink rows initialState).errors.length
    · rw [if_pos h2]
      exact runRows_reasons_dedup sink rows
    · rw [if_neg h2]
      trivial

/-- C6 evaluation: an empty source stream (no header event, no rows) is
rejected with the missing-columns Error naming all fifteen required columns —
not with the `Validation errors found` failure shape the claim and the repo's
own test expect — while zero data rows under a complete header succeed with
totalRecords = 0. -/
theorem c6_empty_input_eval :
    validateCSVAndStoreCSV sinkOk none [] =
      .missingColumnsError ("Missing columns: " ++ joinComma REQUIRED_COLUMNS)
    ∧ validateCSVAndStoreCSV sinkOk (some hdr15) [] = .fileValidated 0 0 0 := by decide

/-- C7: an accepted row whose save call rejects increments the failed count by
exactly one, records exactly `Error saving record in row {n}: {message}`, and
the remaining rows are processed from the updated state — the batch is never
aborted by a per-record persistence failure. -/
theorem c7_save_failure_isolated (sink : Nat → Stock → Except String Unit) (st : PState)
    (row : Row) (rest : List Row) (e : String)
    (hacc : rowRejected row = false)
    (hsink : sink (st.length + 1) (mkStock row) = .error e) :
    runRows sink (row :: rest) st =
      runRows sink rest
        { length := st.length + 1,
          numberoffailedrecords := st.numberoffailedrecords + 1,
          numberofsucceedrecords := st.numberofsucceedrecords,
          failurereasons := insertSet st.failurereasons (saveMsg (st.length + 1) e),
          errors := st.errors ++ [saveMsg (st.length + 1) e] } := by
  rw [runRows_cons, processRow_accepted sink st row hacc, hsink]

/-- Witness for C7: one valid row whose save rejects with `boom`. -/
theorem c7_save_failure_isolated_witness :
    runRows sinkBoom [goodRow] initialState =
      ⟨1, 1, 0, [saveMsg 1 "boom"], [saveMsg 1 "boom"]⟩ :=
  (c7_save_failure_isolated sinkBoom initialState goodRow [] "boom" (by decide) rfl).trans
    (by decide)

/-- C8 evaluation: under the event-loop interleaving in which the save
continuation has not run when `end` fires, the code reports full success for a
batch whose only store call failed, while the await-all pipeline the claim
requires reports that failure. -/
theorem c8_premature_finalization :
    validateRacyCSV sinkBoom (fun _ => false) (some hdr15) [goodRow] = .fileValidated 1 0 1
    ∧ validateCSVAndStoreCSV sinkBoom (some hdr15) [goodRow] =
        .validationFailure 1 1 0 [saveMsg 1 "boom"] := by decide

/-- C9: for an accepted row the stored date is the raw date string parsed
strictly against the ordered layout list — the three layouts are mutually
exclusive, so the first match wins — and rendered as YYYY-MM-DD; a raw value
already in YYYY-MM-DD form is stored unchanged. -/
theorem c9_date_canonicalization (row : Row) (ds : String)
    (hds : row.get? "Date" = some ds) (_hacc : rowRejected row = false) :
    (mkStock row).date = momentFormatYMD (some ds)
    ∧ (∀ f g : DateFormat, momentIsValid (some ds) f = true →
        momentIsValid (some ds) g = true → f = g)
    ∧ (momentIsValid (some ds) DateFormat.ymd = true → (mkStock row).date = ds) := by
  have h1 : (mkStock row).date = momentFormatYMD (some ds) := by
    simp [mkStock, hds]
  refine ⟨h1, fun f g hf hg => formats_exclusive ds f g hf hg, fun hymd => ?_⟩
  have hred : momentIsValid (some ds) DateFormat.ymd =
      match parseWithFormat .ymd ds with
      | some (y, m, d) => dateValid y m d
      | none => false := rfl
  rw [hred] at hymd
  cases hq : parseWithFormat .ymd ds with
  | none =>
    rw [hq] at hymd
    simp at hymd
  | some t =>
    obtain ⟨y, m, d⟩ := t
    rw [hq] at hymd
    rw [h1]
    exact momentFormatYMD_of_ymd ds y m d hq hymd

/-- Witness for C9: the valid scenario row's ISO date is stored unchanged. -/
theorem c9_date_canonicalization_witness : (mkStock goodRow).date = "2024-01-01" :=
  (c9_date_canonicalization goodRow "2024-01-01" (by decide) (by decide)).2.2 (by decide)

/-- C10: row validation reads only the date column and the twelve numeric
columns — two rows agreeing there validate identically, whatever their
`Symbol`/`Series` cells — and the record handed to the sink carries `Symbol`
and `Series` copied verbatim, absent cells included. -/
theorem c10_symbol_series_not_validated (r1 r2 : Row) (n : Nat) (st : PState)
    (h : ∀ c ∈ checkedColumns, r1.get? c = r2.get? c) :
    rowValidationState r1 n st = rowValidationState r2 n st
    ∧ rowRejected r1 = rowRejected r2
    ∧ (mkStock r1).symbol = r1.get? "Symbol"
    ∧ (mkStock r1).series = r1.get? "Series" := by
  have hd : r1.get? "Date" = r2.get? "Date" := h "Date" (by simp [checkedColumns])
  have hn : ∀ f ∈ numericFields, checkNumericFails r1 f = checkNumericFails r2 f := by
    intro f hf
    simp only [checkNumericFails]
    rw [h f (by simp [checkedColumns, hf])]
  have hvd : rowIsValidDate r1 = rowIsValidDate r2 := by
    simp only [rowIsValidDate]
    rw [hd]
  have hrej : rowRejected r1 = rowRejected r2 := by
    simp only [rowRejected]
    rw [hvd, listAny_congr _ _ _ hn]
  have herr : rowValErrors r1 n = rowValErrors r2 n := by
    simp only [rowValErrors, rowNumericErrors]
    rw [hvd, List.filter_congr hn]
  refine ⟨?_, hrej, rfl, rfl⟩
  rw [rowValidationState_eq, rowValidationState_eq, herr, hrej]

/-- Witness for C10: the scenario row with its `Symbol` cell removed validates
exactly like the full row and hands `undefined` symbol to the sink. -/
theorem c10_symbol_series_not_validated_witness :
    rowValidationState rowNoSymbol 1 initialState = rowValidationState goodRow 1 initialState
    ∧ rowRejected rowNoSymbol = rowRejected goodRow
    ∧ (mkStock rowNoSymbol).symbol = rowNoSymbol.get? "Symbol"
    ∧ (mkStock rowNoSymbol).series = rowNoSymbol.get? "Series" :=
  c10_symbol_series_not_validated rowNoSymbol goodRow 1 initialState (by decide)

end StockCSV
